import Mathlib

/-!
Verification of the OCR summary + transactions endpoint (`ocr-parse.py`).

Modelling conventions for the shallow embedding:

* Python `Decimal` values are modelled as exact rationals (`ℚ`); Python
  `float` values are modelled by the wrapper type `PyFloat` holding an exact
  rational, so that the Decimal→float conversion boundary is visible in the
  types.  Float rounding itself is not modelled (no claim depends on it).
* Python dicts are association lists with insertion order, matching the
  iteration-order semantics the code relies on (`dict.get`, key insertion
  order, `max` over keys picking the first maximal key).
* DynamoDB is modelled as a list of pages; the continuation token
  (`LastEvaluatedKey`) is the index of the next page, present on every
  response except the last, exactly as `scan_all_transactions` consumes it.
* S3 writes are recorded in an explicit log of `S3Put` values returned
  alongside the handler result; a failing `put_object` raises, modelled by
  `Except String`.
* Timestamps (`datetime.utcnow()` in its two formats) are passed in through
  the environment as opaque strings (`statsNow`, `emptyNow`, `keyNow`).
-/

namespace OcrParse

/-- Model of a Python float produced by `float(...)`: kept exact as a
rational, with the wrapper marking the Decimal→float conversion boundary. -/
structure PyFloat where
  val : ℚ
deriving DecidableEq

/-- A dynamic Python value as it can occur in a DynamoDB item: a `Decimal`,
a `float`, a string, a bool, or `None`. -/
inductive Value where
  | dec (d : ℚ)
  | num (f : PyFloat)
  | str (s : String)
  | bool (b : Bool)
  | null
deriving DecidableEq

/-- A DynamoDB item / Python dict: association list in insertion order. -/
abbrev Item := List (String × Value)

/-- Python `dict.get(k, default)`. -/
def dictGetD (item : Item) (k : String) (d : Value) : Value :=
  match item.lookup k with
  | some v => v
  | none => d

/-- Numeric value of a digit list (most significant first). -/
def digitsVal (cs : List Char) : Nat :=
  cs.foldl (fun n c => 10 * n + (c.toNat - 48)) 0

/-- Parse the mantissa part of a decimal literal: `digits`, `digits.digits`,
`digits.` or `.digits` (at least one digit overall). -/
def parseDecMantissa (cs : List Char) : Option ℚ :=
  match cs.splitOn '.' with
  | [ip] =>
      if !ip.isEmpty && ip.all Char.isDigit then some (digitsVal ip : ℚ) else none
  | [ip, fp] =>
      if (!ip.isEmpty || !fp.isEmpty) && ip.all Char.isDigit && fp.all Char.isDigit then
        some ((digitsVal ip : ℚ) + (digitsVal fp : ℚ) / (10 : ℚ) ^ fp.length)
      else none
  | _ => none

/-- Strip an optional leading sign, returning the rest and whether it was a
minus sign. -/
def parseSign : List Char → List Char × Bool
  | '+' :: rest => (rest, false)
  | '-' :: rest => (rest, true)
  | cs => (cs, false)

/-- Apply a parsed sign. -/
def applySign (neg : Bool) (q : ℚ) : ℚ :=
  if neg then -q else q

/-- Parse a (signed) decimal exponent. -/
def parseExp (cs : List Char) : Option Int :=
  let p := parseSign cs
  if !p.1.isEmpty && p.1.all Char.isDigit then
    some (if p.2 then -(digitsVal p.1 : Int) else (digitsVal p.1 : Int))
  else none

/-- Strip leading and trailing whitespace from a character list. -/
def trimChars (cs : List Char) : List Char :=
  ((cs.dropWhile Char.isWhitespace).reverse.dropWhile Char.isWhitespace).reverse

/-- Model of Python `Decimal(s)` string parsing: optional sign, digits with an
optional fraction part, optional `e`/`E` exponent; surrounding whitespace is
stripped.  Returns `none` where `Decimal` raises `InvalidOperation`.
(The special values `NaN`/`Infinity`, which `Decimal` also accepts, are not
representable in an exact-rational model and are treated as unparsable.) -/
def parseDecimal (s : String) : Option ℚ :=
  let cs := (trimChars s.toList).map Char.toLower
  match cs.splitOn 'e' with
  | [m] =>
      let p := parseSign m
      (parseDecMantissa p.1).map (applySign p.2)
  | [m, e] =>
      let p := parseSign m
      match parseDecMantissa p.1, parseExp e with
      | some q, some ex => some (applySign p.2 (q * (10 : ℚ) ^ ex))
      | _, _ => none
  | _ => none

/-- Source `decimal_to_float`: convert a `Decimal` for JSON serialization.
In the model the rational value is preserved and only tagged as a float. -/
def decimal_to_float (d : ℚ) : PyFloat :=
  ⟨d⟩

/-- Loop body of `normalize_item`: Decimals become floats, everything else
passes through unchanged. -/
def normValue : Value → Value
  | .dec d => .num (decimal_to_float d)
  | v => v

/-- Python dict assignment `d[k] = v`: overwrite in place when the key is
present, append otherwise. -/
def dictSet (d : Item) (k : String) (v : Value) : Item :=
  if d.any (fun kv => kv.1 = k) then
    d.map (fun kv => if kv.1 = k then (k, v) else kv)
  else
    d ++ [(k, v)]

/-- Source `normalize_item`: rebuild the dict field by field, converting
Decimal values to floats. -/
def normalize_item (item : Item) : Item :=
  item.foldl (fun normalized kv => dictSet normalized kv.1 (normValue kv.2)) []

/-- Source `serialize_transactions`. -/
def serialize_transactions (items : List Item) : List Item :=
  items.map normalize_item

/-- One `table.scan` response against the paged store model: items of the
requested page, plus a continuation token exactly when more pages remain. -/
def scanFrom (pages : List (List Item)) (k : Nat) : List Item :=
  let response_items := pages.getD k []
  if _h : k + 1 < pages.length then
    response_items ++ scanFrom pages (k + 1)
  else
    response_items
termination_by pages.length - k
decreasing_by omega

/-- Source `scan_all_transactions`: first full scan, then follow
`LastEvaluatedKey` tokens until none is returned, accumulating all pages. -/
def scan_all_transactions (pages : List (List Item)) : List Item :=
  scanFrom pages 0

/-- Amount coercion from `compute_stats`: a `Decimal` is used as is, anything
else goes through `Decimal(str(value))`, whose parse failure raises. -/
def coerceAmount : Value → Except String ℚ
  | .dec d => .ok d
  | .num f => .ok f.val
  | .str s =>
      match parseDecimal s with
      | some q => .ok q
      | none => .error ("could not convert string to Decimal: " ++ s)
  | .bool b => .error ("could not convert string to Decimal: " ++ (if b then "True" else "False"))
  | .null => .error "could not convert string to Decimal: None"

/-- The amount contributed by one item: `item.get("amount", Decimal("0"))`
coerced as in `compute_stats`. -/
def amountOf (item : Item) : Except String ℚ :=
  coerceAmount (dictGetD item "amount" (.dec 0))

/-- The grouping key of one item: `item.get("vendor", "Unknown")`. -/
def vendorOf (item : Item) : Value :=
  dictGetD item "vendor" (.str "Unknown")

/-- Python `vendor_totals[vendor] = vendor_totals.get(vendor, Decimal("0")) + amount`
on an insertion-ordered dict. -/
def bumpVendor : List (Value × ℚ) → Value → ℚ → List (Value × ℚ)
  | [], v, a => [(v, a)]
  | (k, q) :: rest, v, a =>
      if k = v then (k, q + a) :: rest else (k, q) :: bumpVendor rest v a

/-- The accumulation loop of `compute_stats`: running decimal total and
insertion-ordered vendor totals; the first uncoercible amount raises. -/
def statsFold (acc : ℚ × List (Value × ℚ)) : List Item → Except String (ℚ × List (Value × ℚ))
  | [] => .ok acc
  | item :: rest =>
      match amountOf item with
      | .error e => .error e
      | .ok amount => statsFold (acc.1 + amount, bumpVendor acc.2 (vendorOf item) amount) rest

/-- Python `max(vendor_totals, key=vendor_totals.get)` over a nonempty dict:
scan in insertion order, replacing the current best only on a strictly larger
total, so the first maximal key wins. -/
def maxKeyAux : Value × ℚ → List (Value × ℚ) → Value
  | best, [] => best.1
  | best, (k, q) :: rest =>
      if best.2 < q then maxKeyAux (k, q) rest else maxKeyAux best rest

/-- First key with maximal value of an insertion-ordered totals dict. -/
def maxKey : List (Value × ℚ) → Option Value
  | [] => none
  | p :: rest => some (maxKeyAux p rest)

/-- The Stats dict produced by `compute_stats`. -/
structure Stats where
  total_transactions : Nat
  total_amount : PyFloat
  biggest_vendor : Option Value
  generated_at : String
deriving DecidableEq

/-- Source `compute_stats`; `now` stands for `datetime.utcnow().isoformat()`. -/
def compute_stats (now : String) (items : List Item) : Except String Stats :=
  match statsFold (0, []) items with
  | .error e => .error e
  | .ok r =>
      .ok { total_transactions := items.length
            total_amount := decimal_to_float r.1
            biggest_vendor := if r.2 = [] then none else maxKey r.2
            generated_at := now }

/-- JSON documents, as produced by `json.dumps`: kept structured (objects as
ordered field lists), since all claims compare structured content. -/
inductive Json where
  | null
  | bool (b : Bool)
  | num (q : ℚ)
  | str (s : String)
  | arr (elems : List Json)
  | obj (fields : List (String × Json))

/-- Field lookup in a JSON object (`none` on non-objects). -/
def jget (j : Json) (k : String) : Option Json :=
  match j with
  | .obj fields => fields.lookup k
  | _ => none

/-- JSON encoding of the `Value`s that `json.dumps` accepts.  A raw `Decimal`
is not JSON serializable in Python; in this model it is encoded as its number
and ruled out separately where it could occur (normalized transaction values
are Decimal-free, and `statsToJson` rejects a Decimal vendor). -/
def valueJson : Value → Json
  | .dec d => .num d
  | .num f => .num f.val
  | .str s => .str s
  | .bool b => .bool b
  | .null => .null

/-- JSON encoding of a normalized item. -/
def itemToJson (item : Item) : Json :=
  .obj (item.map (fun kv => (kv.1, valueJson kv.2)))

/-- Serialize the Stats dict.  `json.dumps` raises `TypeError` when
`biggest_vendor` is a raw `Decimal`. -/
def statsToJson (s : Stats) : Except String Json :=
  match s.biggest_vendor with
  | some (.dec _) => .error "Object of type Decimal is not JSON serializable"
  | bv =>
      .ok (.obj [("total_transactions", .num s.total_transactions),
                 ("total_amount", .num s.total_amount.val),
                 ("biggest_vendor", match bv with | some v => valueJson v | none => .null),
                 ("generated_at", .str s.generated_at)])

/-- Python truthiness of a `Value`, as used by `biggest_vendor or 'N/A'`. -/
def pyTruthy : Value → Bool
  | .dec d => if d = 0 then false else true
  | .num f => if f.val = 0 then false else true
  | .str s => !s.isEmpty
  | .bool b => b
  | .null => false

/-- Python `str` of a `Value`, for f-string interpolation.  (Numeric display
uses a plain rational rendering; no claim exercises a numeric vendor.) -/
def pyStr : Value → String
  | .dec d => toString d.num ++ (if d.den = 1 then "" else "/" ++ toString d.den)
  | .num f => toString f.val.num ++ (if f.val.den = 1 then "" else "/" ++ toString f.val.den)
  | .str s => s
  | .bool b => if b then "True" else "False"
  | .null => "None"

/-- The f-string fragment `{biggest_vendor or 'N/A'}`. -/
def vendorDisplay : Option Value → String
  | none => "N/A"
  | some v => if pyTruthy v then pyStr v else "N/A"

/-- Round `q * 100` to an integer, ties to even, over the exact rational:
the cents value printed by the `.2f` float format. -/
def pyRound2 (q : ℚ) : Int :=
  let n := q.num * 100
  let d := (q.den : Int)
  let f := Int.fdiv n d
  let r := n - f * d
  if 2 * r < d then f
  else if d < 2 * r then f + 1
  else if f % 2 = 0 then f else f + 1

/-- Render a natural number with two digits (for the cents part). -/
def twoDigits (n : Nat) : String :=
  if n < 10 then "0" ++ toString n else toString n

/-- Insert a comma after every three digits of a reversed digit list. -/
def groupRev : List Char → List Char
  | a :: b :: c :: d :: rest => a :: b :: c :: ',' :: groupRev (d :: rest)
  | l => l

/-- Render a natural number with thousands separators. -/
def commaFmt (n : Nat) : String :=
  String.mk ((groupRev (Nat.toDigits 10 n).reverse).reverse)

/-- Model of the Python format `f"{x:,.2f}"`: sign, thousands-separated
integer part, and exactly two rounded decimal places. -/
def formatMoney (q : ℚ) : String :=
  let cents := pyRound2 q
  (if q < 0 then "-" else "") ++ commaFmt (cents.natAbs / 100) ++ "." ++ twoDigits (cents.natAbs % 100)

/-- The summary sentence built by `build_summary`. -/
def summaryText (stats : Stats) : String :=
  toString stats.total_transactions ++ " transactions captured. Top vendor: " ++
    vendorDisplay stats.biggest_vendor ++ ". Total spend: $" ++
    formatMoney stats.total_amount.val ++ "."

/-- Source constant `BUCKET_NAME`. -/
def BUCKET_NAME : String := "acct-ai-uploads-https"

/-- Source constant `TABLE_NAME` (unused by the modelled logic). -/
def TABLE_NAME : String := "transactions"

/-- Source constant `CORS_HEADERS`. -/
def CORS_HEADERS : List (String × String) :=
  [("Access-Control-Allow-Origin", "*"),
   ("Access-Control-Allow-Headers", "Content-Type"),
   ("Access-Control-Allow-Methods", "OPTIONS,GET,POST")]

/-- One completed `s3.put_object` call. -/
structure S3Put where
  bucket : String
  key : String
  body : Json
  contentType : String

/-- The external world of one invocation: the paged record store, whether
`put_object` succeeds (and the exception message when it does not), and the
three opaque timestamp strings drawn from `datetime.utcnow()`. -/
structure Env where
  pages : List (List Item)
  putOk : Bool
  putErrMsg : String
  statsNow : String
  emptyNow : String
  keyNow : String

/-- What a successful `build_summary` produces: the payload fields and the
completed S3 write. -/
structure BuildResult where
  summary_text : String
  statsJson : Json
  summaryKey : String
  put : S3Put

/-- Source `build_summary`; `env.keyNow` stands for
`datetime.utcnow().strftime("%Y%m%d%H%M%S")`.  The `json.dumps` of the stats
happens while building the request body, before the write; a failing
`put_object` raises `env.putErrMsg`.  The returned dict is
`{"status": "success", "summary": ..., "stats": ..., "summaryKey": ...}`,
rendered into the response by `successBody` below. -/
def build_summary (env : Env) (stats : Stats) : Except String BuildResult :=
  let summary_text := summaryText stats
  let summary_key := "summaries/" ++ "summary-" ++ env.keyNow ++ ".json"
  match statsToJson stats with
  | .error e => .error e
  | .ok sj =>
      if env.putOk then
        .ok { summary_text := summary_text
              statsJson := sj
              summaryKey := summary_key
              put := { bucket := BUCKET_NAME
                       key := summary_key
                       body := .obj [("summary", .str summary_text), ("stats", sj)]
                       contentType := "application/json" } }
      else
        .error env.putErrMsg

/-- Source `apply_limit`. -/
def apply_limit (transactions : List Item) (limit : Option Int) : List Item :=
  match limit with
  | none => transactions
  | some l => if l ≤ 0 then transactions else transactions.take l.toNat

/-- Source `empty_payload`; `now` stands for `datetime.utcnow().isoformat()`. -/
def empty_payload (now : String) : Json :=
  .obj [("status", .str "no_data"),
        ("summary", .str "No transactions yet."),
        ("stats", .obj [("total_transactions", .num 0),
                        ("total_amount", .num 0),
                        ("biggest_vendor", .null),
                        ("generated_at", .str now)]),
        ("summaryKey", .null),
        ("transactions", .arr [])]

/-- The fixed-shape error body produced by the outermost `except` clause. -/
def errBody (msg : String) : Json :=
  .obj [("status", .str "error"), ("message", .str msg)]

/-- The success response body: `{**summary_payload, "transactions": ...}`,
so the four `build_summary` fields in order followed by the transactions. -/
def successBody (r : BuildResult) (txs : List Item) : Json :=
  .obj [("status", .str "success"),
        ("summary", .str r.summary_text),
        ("stats", r.statsJson),
        ("summaryKey", .str r.summaryKey),
        ("transactions", .arr (txs.map itemToJson))]

/-- The parts of the API Gateway event the handler reads. -/
structure Event where
  httpMethod : Option String
  queryStringParameters : Option (List (String × String))

/-- An HTTP response; `body` is `none` for the empty-string OPTIONS body and
`some` of the structured document passed to `json.dumps` otherwise. -/
structure HandlerResult where
  statusCode : Nat
  headers : List (String × String)
  body : Option Json

/-- Model of Python `str.isdigit`. -/
def pyIsDigit (s : String) : Bool :=
  !s.isEmpty && s.all Char.isDigit

/-- The limit parsing of `lambda_handler`: `int(limit)` when the query value
is a digit string, `None` otherwise. -/
def parseLimit (qp : List (String × String)) : Option Int :=
  match qp.lookup "limit" with
  | some s => if pyIsDigit s then some (s.toNat?.getD 0 : Int) else none
  | none => none

/-- Source `lambda_handler`, returning the HTTP response together with the
log of completed S3 writes. -/
def lambda_handler (env : Env) (event : Event) : HandlerResult × List S3Put :=
  if event.httpMethod = some "OPTIONS" then
    (⟨204, CORS_HEADERS, none⟩, [])
  else
    let limit_value := parseLimit (event.queryStringParameters.getD [])
    let raw_items := scan_all_transactions env.pages
    if raw_items = [] then
      (⟨200, CORS_HEADERS, some (empty_payload env.emptyNow)⟩, [])
    else
      let serialized := serialize_transactions raw_items
      match compute_stats env.statsNow raw_items with
      | .error msg => (⟨500, CORS_HEADERS, some (errBody msg)⟩, [])
      | .ok stats =>
          match build_summary env stats with
          | .error msg => (⟨500, CORS_HEADERS, some (errBody msg)⟩, [])
          | .ok r =>
              (⟨200, CORS_HEADERS, some (successBody r (apply_limit serialized limit_value))⟩, [r.put])

/-! Aggregation infrastructure: the exact decimal amounts extracted by
`compute_stats`, and how `statsFold` relates to them. -/

/-- The coerced amount of an item when coercion succeeds, `0` otherwise. -/
def amountD (item : Item) : ℚ :=
  match amountOf item with
  | .ok q => q
  | .error _ => 0

/-- The exact decimal amounts of all records, in order; fails on the first
record whose amount cannot be coerced (spec-side description of the sum
`compute_stats` must produce). -/
def amountList : List Item → Except String (List ℚ)
  | [] => .ok []
  | it :: rest =>
      match amountOf it with
      | .error e => .error e
      | .ok a =>
          match amountList rest with
          | .error e => .error e
          | .ok rest' => .ok (a :: rest')

/-- Demo record set from the spec scenario: amounts 10.50, 5.25, 4.25 with
vendors A, B, A. -/
def demoItems : List Item :=
  [[("amount", .dec (21/2)), ("vendor", .str "A")],
   [("amount", .dec (21/4)), ("vendor", .str "B")],
   [("amount", .dec (17/4)), ("vendor", .str "A")]]

/-- The Stats the spec scenario expects for `demoItems`. -/
def demoStats : Stats :=
  { total_transactions := 3
    total_amount := ⟨20⟩
    biggest_vendor := some (.str "A")
    generated_at := "T" }

/-- Demo record mixing a Decimal field, a string field, and opaque fields
unknown to the system. -/
def wMixedItem : Item :=
  [("amount", .dec (21/2)), ("vendor", .str "A"), ("receipt", .null), ("flagged", .bool true)]

/-- Environment whose store scan yields no records. -/
def wEmptyEnv : Env :=
  { pages := [[]], putOk := true, putErrMsg := "", statsNow := "S", emptyNow := "E", keyNow := "K" }

/-- A plain GET request without query parameters. -/
def wEventGET : Event :=
  { httpMethod := some "GET", queryStringParameters := none }

/-- A record whose amount is a non-numeric string. -/
def wBadItem : Item := [("amount", .str "abc")]

/-- Environment whose store holds the single malformed record. -/
def wBadEnv : Env :=
  { pages := [[wBadItem]], putOk := true, putErrMsg := "", statsNow := "S", emptyNow := "E", keyNow := "K" }

/-- Total recorded for a vendor key in the vendor-totals dict (0 if absent),
i.e. Python `vendor_totals.get(v, Decimal("0"))`. -/
def vtGet (vt : List (Value × ℚ)) (v : Value) : ℚ :=
  match vt.lookup v with
  | some q => q
  | none => 0

/-- Demo records plus one record that lacks a vendor field. -/
def wVendorItems : List Item :=
  demoItems ++ [[("amount", .dec 1)]]

/-- The Stats for `wVendorItems`: total 21, biggest vendor "A". -/
def wVendorStats : Stats :=
  { total_transactions := 4
    total_amount := ⟨21⟩
    biggest_vendor := some (.str "A")
    generated_at := "T" }

/-- JSON form of the demo Stats. -/
def demoStatsJson : Json :=
  .obj [("total_transactions", .num ((3 : Nat) : ℚ)),
        ("total_amount", .num 20),
        ("biggest_vendor", .str "A"),
        ("generated_at", .str "T")]

/-- The summary sentence for the demo Stats. -/
def wSummaryLine : String :=
  "3 transactions captured. Top vendor: A. Total spend: $20.00."

/-- The S3 write performed for the demo Stats with key timestamp "K". -/
def wPut : S3Put :=
  { bucket := BUCKET_NAME
    key := "summaries/" ++ "summary-" ++ "K" ++ ".json"
    body := .obj [("summary", .str wSummaryLine), ("stats", demoStatsJson)]
    contentType := "application/json" }

/-- The `build_summary` result for the demo Stats. -/
def wBuild : BuildResult :=
  { summary_text := wSummaryLine
    statsJson := demoStatsJson
    summaryKey := "summaries/" ++ "summary-" ++ "K" ++ ".json"
    put := wPut }

/-- Environment with the demo records and a working snapshot store. -/
def wEnvOk : Env :=
  { pages := [demoItems], putOk := true, putErrMsg := "", statsNow := "T", emptyNow := "E",
    keyNow := "K" }

/-- Environment with the demo records whose snapshot write fails. -/
def wFailEnv : Env :=
  { pages := [demoItems], putOk := false, putErrMsg := "boom", statsNow := "T", emptyNow := "E",
    keyNow := "K" }

/-- The normalized demo records (Decimal amounts converted to floats). -/
def wNormItems : List Item :=
  [[("amount", .num ⟨21/2⟩), ("vendor", .str "A")],
   [("amount", .num ⟨21/4⟩), ("vendor", .str "B")],
   [("amount", .num ⟨17/4⟩), ("vendor", .str "A")]]

/-- The success response for the demo environment. -/
def wSuccessRes : HandlerResult :=
  ⟨200, CORS_HEADERS, some (successBody wBuild wNormItems)⟩

lemma statsFold_ok_mem {acc r} {l : List Item} (h : statsFold acc l = .ok r) :
    ∀ it ∈ l, ∃ q, amountOf it = .ok q := by
  induction l generalizing acc with
  | nil => intro it hit; cases hit
  | cons a rest ih =>
      intro it hit
      rw [statsFold] at h
      cases ha : amountOf a with
      | error e => rw [ha] at h; cases h
      | ok q =>
          rw [ha] at h
          rcases List.mem_cons.mp hit with rfl | hmem
          · exact ⟨q, ha⟩
          · exact ih h it hmem

lemma statsFold_ok_total {acc r} {l : List Item} (h : statsFold acc l = .ok r) :
    r.1 = acc.1 + (l.map amountD).sum := by
  induction l generalizing acc with
  | nil =>
      rw [statsFold] at h
      cases h
      simp
  | cons a rest ih =>
      rw [statsFold] at h
      cases ha : amountOf a with
      | error e => rw [ha] at h; cases h
      | ok q =>
          rw [ha] at h
          have := ih h
          simp only [List.map_cons, List.sum_cons, amountD, ha] at this ⊢
          rw [this]
          ring

lemma statsFold_ok_of_amounts {l : List Item} (hok : ∀ it ∈ l, ∃ q, amountOf it = .ok q) :
    ∀ acc, ∃ r, statsFold acc l = .ok r := by
  induction l with
  | nil => intro acc; exact ⟨acc, rfl⟩
  | cons a rest ih =>
      intro acc
      obtain ⟨q, hq⟩ := hok a (List.mem_cons_self a rest)
      obtain ⟨r, hr⟩ := ih (fun it hit => hok it (List.mem_cons_of_mem a hit))
        (acc.1 + q, bumpVendor acc.2 (vendorOf a) q)
      exact ⟨r, by rw [statsFold, hq]; exact hr⟩

lemma amountList_eval {l : List Item} (hok : ∀ it ∈ l, ∃ q, amountOf it = .ok q) :
    amountList l = .ok (l.map amountD) := by
  induction l with
  | nil => rfl
  | cons a rest ih =>
      obtain ⟨q, hq⟩ := hok a (List.mem_cons_self a rest)
      rw [amountList, hq, ih (fun it hit => hok it (List.mem_cons_of_mem a hit))]
      simp [amountD, hq]

/-- C1: for every record set accepted by `compute_stats`, the reported
`total_amount` is the float conversion of the exact decimal-precision sum of
all record amounts (a missing amount contributing zero via the
`Decimal("0")` default), the conversion `decimal_to_float` being applied once
to the final rational sum; and the value is independent of record order. -/
theorem compute_stats_total_amount_exact (now : String) (items : List Item) (s : Stats)
    (h : compute_stats now items = .ok s) :
    (∃ qs, amountList items = .ok qs ∧ s.total_amount = decimal_to_float qs.sum) ∧
    (∀ now' items', items.Perm items' →
      ∃ s', compute_stats now' items' = .ok s' ∧ s'.total_amount = s.total_amount) := by
  unfold compute_stats at h
  cases hf : statsFold (0, []) items with
  | error e => rw [hf] at h; cases h
  | ok r =>
      rw [hf] at h
      cases h
      have hmem := statsFold_ok_mem hf
      have htot := statsFold_ok_total hf
      simp only [zero_add] at htot
      constructor
      · exact ⟨items.map amountD, amountList_eval hmem, by simp [htot]⟩
      · intro now' items' hperm
        have hmem' : ∀ it ∈ items', ∃ q, amountOf it = .ok q :=
          fun it hit => hmem it (hperm.mem_iff.mpr hit)
        obtain ⟨r', hr'⟩ := statsFold_ok_of_amounts hmem' (0, [])
        have htot' := statsFold_ok_total hr'
        simp only [zero_add] at htot'
        refine ⟨_, by unfold compute_stats; rw [hr'], ?_⟩
        simp only [htot, htot', decimal_to_float]
        rw [(hperm.map amountD).sum_eq]



lemma compute_stats_demo : compute_stats "T" demoItems = .ok demoStats := by
  simp only [demoItems, demoStats, compute_stats, statsFold, amountOf, coerceAmount,
    dictGetD, vendorOf, bumpVendor, List.lookup, String.reduceEq, String.reduceBEq,
    reduceIte, Value.str.injEq, decimal_to_float]
  norm_num [maxKey, maxKeyAux, Stats.mk.injEq, PyFloat.mk.injEq]
  exact fun h => absurd h (List.cons_ne_nil _ _)

/-- Witness for C1 at the spec's three-record scenario. -/
theorem compute_stats_total_amount_exact_witness :
    (∃ qs, amountList demoItems = .ok qs ∧ demoStats.total_amount = decimal_to_float qs.sum) ∧
    (∀ now' items', demoItems.Perm items' →
      ∃ s', compute_stats now' items' = .ok s' ∧ s'.total_amount = demoStats.total_amount) :=
  compute_stats_total_amount_exact "T" demoItems demoStats compute_stats_demo

lemma scanFrom_eq_flatten (pages : List (List Item)) :
    ∀ n k, pages.length - k ≤ n → scanFrom pages k = (pages.drop k).flatten := by
  intro n
  induction n with
  | zero =>
      intro k hk
      have hlen : pages.length ≤ k := by omega
      rw [scanFrom]
      simp only [List.getD_eq_default _ _ hlen]
      rw [dif_neg (by omega), List.drop_eq_nil_of_le hlen, List.flatten_nil]
  | succ n ih =>
      intro k hk
      rw [scanFrom]
      by_cases h : k + 1 < pages.length
      · rw [dif_pos h, ih (k + 1) (by omega)]
        have hklt : k < pages.length := by omega
        rw [List.drop_eq_getElem_cons hklt, List.flatten_cons, List.getD_eq_getElem _ _ hklt]
      · rw [dif_neg h]
        by_cases hkl : k < pages.length
        · rw [List.drop_eq_getElem_cons hkl, List.getD_eq_getElem _ _ hkl]
          have hnil : pages.drop (k + 1) = [] := List.drop_eq_nil_of_le (by omega)
          rw [hnil, List.flatten_cons, List.flatten_nil, List.append_nil]
        · push_neg at hkl
          rw [List.getD_eq_default _ _ hkl, List.drop_eq_nil_of_le hkl, List.flatten_nil]

/-- C2: the loader returns exactly the concatenation of all pages in page
order — the first scan plus one further scan per continuation token, with
nothing dropped and nothing de-duplicated. -/
theorem scan_all_transactions_complete (pages : List (List Item)) :
    scan_all_transactions pages = pages.flatten := by
  rw [scan_all_transactions, scanFrom_eq_flatten pages pages.length 0 (by omega), List.drop_zero]

/-- Shared form of C2's statement, usable by other proofs. -/
lemma scan_all_flatten (pages : List (List Item)) :
    scan_all_transactions pages = pages.flatten := by
  rw [scan_all_transactions, scanFrom_eq_flatten pages pages.length 0 (by omega), List.drop_zero]

/-- C5: `apply_limit` keeps exactly the first `min(limit, len)` records in
order for a positive limit, and returns the list unchanged when the limit is
absent, zero, or negative. -/
theorem apply_limit_law (transactions : List Item) (l : Int) :
    (0 < l → apply_limit transactions (some l) = transactions.take (min l.toNat transactions.length)) ∧
    apply_limit transactions none = transactions ∧
    (l ≤ 0 → apply_limit transactions (some l) = transactions) := by
  refine ⟨?_, rfl, ?_⟩
  · intro hl
    rw [apply_limit, if_neg (by omega)]
    rcases le_or_lt l.toNat transactions.length with hle | hgt
    · rw [min_eq_left hle]
    · rw [min_eq_right hgt.le, List.take_length, List.take_of_length_le hgt.le]
  · intro hl
    rw [apply_limit, if_pos hl]

/-- Witness for C5 at `limit` values 1, absent, 0 and -3 on the demo records. -/
theorem apply_limit_law_witness :
    apply_limit demoItems (some 1) = demoItems.take (min (1 : Int).toNat demoItems.length) ∧
    apply_limit demoItems none = demoItems ∧
    apply_limit demoItems (some 0) = demoItems ∧
    apply_limit demoItems (some (-3)) = demoItems :=
  ⟨(apply_limit_law demoItems 1).1 (by norm_num),
   (apply_limit_law demoItems 1).2.1,
   (apply_limit_law demoItems 0).2.2 (by norm_num),
   (apply_limit_law demoItems (-3)).2.2 (by norm_num)⟩

lemma dictSet_append {d : Item} {k : String} {v : Value} (h : ∀ kv ∈ d, kv.1 ≠ k) :
    dictSet d k v = d ++ [(k, v)] := by
  rw [dictSet, if_neg]
  simp only [List.any_eq_true, decide_eq_true_eq, not_exists]
  intro kv hkv
  exact h kv hkv.1 hkv.2

lemma normalize_foldl (item : Item) :
    ∀ acc : Item, (item.map Prod.fst).Nodup →
      (∀ kv ∈ item, ∀ kv2 ∈ acc, kv2.1 ≠ kv.1) →
      item.foldl (fun n kv => dictSet n kv.1 (normValue kv.2)) acc
        = acc ++ item.map (fun kv => (kv.1, normValue kv.2)) := by
  induction item with
  | nil => intro acc _ _; simp
  | cons a rest ih =>
      intro acc hnd hdisj
      rw [List.foldl_cons, dictSet_append (fun kv2 h2 => hdisj a (List.mem_cons_self a rest) kv2 h2)]
      rw [ih (acc ++ [(a.1, normValue a.2)]) ((List.nodup_cons.mp (by simpa using hnd)).2) ?_]
      · simp
      · intro kv hkv kv2 hkv2
        rcases List.mem_append.mp hkv2 with h2 | h2
        · exact hdisj kv (List.mem_cons_of_mem a hkv) kv2 h2
        · have hk2 : kv2 = (a.1, normValue a.2) := by simpa using h2
          have hmem : kv.1 ∈ rest.map Prod.fst := List.mem_map_of_mem Prod.fst hkv
          have hnotin : a.1 ∉ rest.map Prod.fst := (List.nodup_cons.mp (by simpa using hnd)).1
          intro hcontra
          rw [hk2] at hcontra
          exact hnotin (hcontra ▸ hmem)

/-- C6: for a record with distinct field names (every Python dict),
normalization converts each Decimal field value to a float and passes every
other value and every key through unchanged, preserving the whole field set
including fields unknown to the system. -/
theorem normalize_item_spec (item : Item) (hnd : (item.map Prod.fst).Nodup) :
    normalize_item item = item.map (fun kv => (kv.1, normValue kv.2)) ∧
    (normalize_item item).map Prod.fst = item.map Prod.fst ∧
    (∀ kv ∈ item, (∀ d, kv.2 ≠ Value.dec d) → kv ∈ normalize_item item) ∧
    (∀ kv ∈ item, ∀ d, kv.2 = Value.dec d →
      (kv.1, Value.num (decimal_to_float d)) ∈ normalize_item item) := by
  have hmain : normalize_item item = item.map (fun kv => (kv.1, normValue kv.2)) := by
    rw [normalize_item, normalize_foldl item [] hnd (by intro kv _ kv2 h2; cases h2)]
    simp
  refine ⟨hmain, by rw [hmain]; simp, ?_, ?_⟩
  · intro kv hkv hnotdec
    rw [hmain]
    have hval : normValue kv.2 = kv.2 := by
      cases hv : kv.2 with
      | dec d => exact absurd hv (hnotdec d)
      | num f => rfl
      | str s => rfl
      | bool b => rfl
      | null => rfl
    exact List.mem_map.mpr ⟨kv, hkv, by rw [hval]⟩
  · intro kv hkv d hd
    rw [hmain]
    exact List.mem_map.mpr ⟨kv, hkv, by rw [hd]; rfl⟩


/-- Witness for C6 on a record with Decimal, string, null and bool fields. -/
theorem normalize_item_spec_witness :
    normalize_item wMixedItem = wMixedItem.map (fun kv => (kv.1, normValue kv.2)) ∧
    (normalize_item wMixedItem).map Prod.fst = wMixedItem.map Prod.fst ∧
    (∀ kv ∈ wMixedItem, (∀ d, kv.2 ≠ Value.dec d) → kv ∈ normalize_item wMixedItem) ∧
    (∀ kv ∈ wMixedItem, ∀ d, kv.2 = Value.dec d →
      (kv.1, Value.num (decimal_to_float d)) ∈ normalize_item wMixedItem) :=
  normalize_item_spec wMixedItem (by decide)

/-- C3: when the loaded record set is empty, the handler answers 200 with the
fixed sentinel payload — status `no_data`, empty transactions, null
summaryKey, zero count and zero total — and the snapshot publisher performs
no write. -/
theorem empty_store_no_data (env : Env) (event : Event)
    (hm : event.httpMethod ≠ some "OPTIONS")
    (he : scan_all_transactions env.pages = []) :
    lambda_handler env event = (⟨200, CORS_HEADERS, some (empty_payload env.emptyNow)⟩, []) ∧
    jget (empty_payload env.emptyNow) "status" = some (.str "no_data") ∧
    jget (empty_payload env.emptyNow) "transactions" = some (.arr []) ∧
    jget (empty_payload env.emptyNow) "summaryKey" = some .null ∧
    (∃ stj, jget (empty_payload env.emptyNow) "stats" = some stj ∧
      jget stj "total_transactions" = some (.num 0) ∧
      jget stj "total_amount" = some (.num 0) ∧
      jget stj "biggest_vendor" = some .null) := by
  refine ⟨?_, rfl, rfl, rfl, ⟨_, rfl, rfl, rfl, rfl⟩⟩
  rw [lambda_handler, if_neg hm]
  simp [he]



/-- Witness for C3 against a store with one empty page. -/
theorem empty_store_no_data_witness :
    lambda_handler wEmptyEnv wEventGET
      = (⟨200, CORS_HEADERS, some (empty_payload wEmptyEnv.emptyNow)⟩, []) ∧
    jget (empty_payload wEmptyEnv.emptyNow) "status" = some (.str "no_data") ∧
    jget (empty_payload wEmptyEnv.emptyNow) "transactions" = some (.arr []) ∧
    jget (empty_payload wEmptyEnv.emptyNow) "summaryKey" = some .null ∧
    (∃ stj, jget (empty_payload wEmptyEnv.emptyNow) "stats" = some stj ∧
      jget stj "total_transactions" = some (.num 0) ∧
      jget stj "total_amount" = some (.num 0) ∧
      jget stj "biggest_vendor" = some .null) :=
  empty_store_no_data wEmptyEnv wEventGET (by decide) (by rw [scan_all_flatten]; rfl)

/-- C4: a record whose amount is present but cannot be coerced by decimal
parsing makes the whole request fail — `compute_stats` raises, nothing is
written, and the caller receives the fixed-shape
`{"status": "error", "message": <string>}` body with HTTP 500. -/
theorem malformed_amount_fails (env : Env) (event : Event) (it : Item)
    (hm : event.httpMethod ≠ some "OPTIONS")
    (hmem : it ∈ scan_all_transactions env.pages)
    (hbad : ∀ q, amountOf it ≠ .ok q) :
    ∃ msg, compute_stats env.statsNow (scan_all_transactions env.pages) = .error msg ∧
      lambda_handler env event = (⟨500, CORS_HEADERS, some (errBody msg)⟩, []) ∧
      errBody msg = .obj [("status", .str "error"), ("message", .str msg)] := by
  have hne : scan_all_transactions env.pages ≠ [] := List.ne_nil_of_mem hmem
  cases hc : compute_stats env.statsNow (scan_all_transactions env.pages) with
  | ok s =>
      exfalso
      unfold compute_stats at hc
      cases hf : statsFold (0, []) (scan_all_transactions env.pages) with
      | error e => rw [hf] at hc; cases hc
      | ok r =>
          obtain ⟨q, hq⟩ := statsFold_ok_mem hf it hmem
          exact hbad q hq
  | error msg =>
      refine ⟨msg, rfl, ?_, rfl⟩
      rw [lambda_handler, if_neg hm]
      simp [hne, hc]



/-- Witness for C4 against a store holding one record with amount "abc". -/
theorem malformed_amount_fails_witness :
    ∃ msg, compute_stats wBadEnv.statsNow (scan_all_transactions wBadEnv.pages) = .error msg ∧
      lambda_handler wBadEnv wEventGET = (⟨500, CORS_HEADERS, some (errBody msg)⟩, []) ∧
      errBody msg = .obj [("status", .str "error"), ("message", .str msg)] :=
  malformed_amount_fails wBadEnv wEventGET wBadItem (by decide)
    (by rw [scan_all_flatten]; simp [wBadEnv])
    (by
      have hav : amountOf wBadItem = .error ("could not convert string to Decimal: " ++ "abc") := rfl
      intro q h
      rw [hav] at h
      exact Except.noConfusion h)


lemma vtGet_cons (k : Value) (q : ℚ) (rest : List (Value × ℚ)) (v : Value) :
    vtGet ((k, q) :: rest) v = if k = v then q else vtGet rest v := by
  by_cases h : k = v
  · subst h
    simp [vtGet, List.lookup]
  · rw [if_neg h]
    have hb : (v == k) = false := beq_eq_false_iff_ne.mpr (fun hh => h hh.symm)
    simp [vtGet, List.lookup, hb]

lemma bumpVendor_vtGet (vt : List (Value × ℚ)) (v : Value) (a : ℚ) (w : Value) :
    vtGet (bumpVendor vt v a) w = vtGet vt w + (if v = w then a else 0) := by
  induction vt with
  | nil =>
      rw [bumpVendor, vtGet_cons]
      have h0 : vtGet [] w = 0 := rfl
      by_cases h : v = w
      · rw [if_pos h, if_pos h, h0, zero_add]
      · rw [if_neg h, if_neg h, h0, add_zero]
  | cons p rest ih =>
      obtain ⟨k, q⟩ := p
      by_cases hkv : k = v
      · rw [bumpVendor, if_pos hkv, vtGet_cons, vtGet_cons]
        by_cases hkw : k = w
        · rw [if_pos hkw, if_pos hkw, if_pos (hkv.symm.trans hkw)]
        · rw [if_neg hkw, if_neg hkw, if_neg (fun hvw => hkw (hkv.trans hvw)), add_zero]
      · rw [bumpVendor, if_neg hkv, vtGet_cons, vtGet_cons]
        by_cases hkw : k = w
        · rw [if_pos hkw, if_pos hkw, if_neg (fun hvw => hkv (hkw.trans hvw.symm)), add_zero]
        · rw [if_neg hkw, if_neg hkw, ih]

lemma statsFold_vtGet {l : List Item} :
    ∀ {acc r}, statsFold acc l = .ok r → ∀ v,
      vtGet r.2 v = vtGet acc.2 v
        + ((l.filter (fun it => vendorOf it == v)).map amountD).sum := by
  induction l with
  | nil =>
      intro acc r h v
      rw [statsFold] at h
      cases h
      simp
  | cons a rest ih =>
      intro acc r h v
      rw [statsFold] at h
      cases ha : amountOf a with
      | error e => rw [ha] at h; cases h
      | ok q =>
          rw [ha] at h
          rw [ih h v, bumpVendor_vtGet]
          by_cases hv : vendorOf a = v
          · rw [List.filter_cons_of_pos (by simp [hv])]
            simp only [List.map_cons, List.sum_cons, if_pos hv, amountD, ha]
            ring
          · rw [List.filter_cons_of_neg (by simp [hv]), if_neg hv, add_zero]

lemma bumpVendor_keys {vt : List (Value × ℚ)} {v : Value} {a : ℚ} {w : Value}
    (h : w ∈ (bumpVendor vt v a).map Prod.fst) :
    w ∈ vt.map Prod.fst ∨ w = v := by
  induction vt with
  | nil =>
      right
      simpa [bumpVendor] using h
  | cons p rest ih =>
      obtain ⟨k, q⟩ := p
      rw [bumpVendor] at h
      by_cases hkv : k = v
      · rw [if_pos hkv] at h
        simp only [List.map_cons, List.mem_cons] at h ⊢
        rcases h with h | h
        · exact Or.inl (Or.inl h)
        · exact Or.inl (Or.inr h)
      · rw [if_neg hkv] at h
        simp only [List.map_cons, List.mem_cons] at h ⊢
        rcases h with h | h
        · exact Or.inl (Or.inl h)
        · rcases ih h with h1 | h1
          · exact Or.inl (Or.inr h1)
          · exact Or.inr h1

lemma statsFold_keys {l : List Item} :
    ∀ {acc r}, statsFold acc l = .ok r → ∀ w ∈ r.2.map Prod.fst,
      w ∈ acc.2.map Prod.fst ∨ w ∈ l.map vendorOf := by
  induction l with
  | nil =>
      intro acc r h w hw
      rw [statsFold] at h
      cases h
      exact Or.inl hw
  | cons a rest ih =>
      intro acc r h w hw
      rw [statsFold] at h
      cases ha : amountOf a with
      | error e => rw [ha] at h; cases h
      | ok q =>
          rw [ha] at h
          rcases ih h w hw with hacc | hrest
          · rcases bumpVendor_keys hacc with h1 | h1
            · exact Or.inl h1
            · exact Or.inr (by simp [h1])
          · exact Or.inr (by simp only [List.map_cons, List.mem_cons]; exact Or.inr hrest)

lemma bumpVendor_ne_nil (vt : List (Value × ℚ)) (v : Value) (a : ℚ) :
    bumpVendor vt v a ≠ [] := by
  cases vt with
  | nil => simp [bumpVendor]
  | cons p rest =>
      obtain ⟨k, q⟩ := p
      rw [bumpVendor]
      by_cases h : k = v
      · rw [if_pos h]; simp
      · rw [if_neg h]; simp

lemma statsFold_ne_nil {l : List Item} :
    ∀ {acc r}, statsFold acc l = .ok r → acc.2 ≠ [] → r.2 ≠ [] := by
  induction l with
  | nil =>
      intro acc r h hne
      rw [statsFold] at h
      cases h
      exact hne
  | cons a rest ih =>
      intro acc r h hne
      rw [statsFold] at h
      cases ha : amountOf a with
      | error e => rw [ha] at h; cases h
      | ok q => rw [ha] at h; exact ih h (bumpVendor_ne_nil _ _ _)

lemma maxKeyAux_mem (l : List (Value × ℚ)) :
    ∀ best, maxKeyAux best l ∈ best.1 :: l.map Prod.fst := by
  induction l with
  | nil => intro best; simp [maxKeyAux]
  | cons p rest ih =>
      intro best
      obtain ⟨k, q⟩ := p
      rw [maxKeyAux]
      by_cases h : best.2 < q
      · rw [if_pos h]
        have hmem := ih (k, q)
        simp only [List.map_cons, List.mem_cons] at hmem ⊢
        tauto
      · rw [if_neg h]
        have hmem := ih best
        simp only [List.map_cons, List.mem_cons] at hmem ⊢
        tauto

lemma maxKey_mem {vt : List (Value × ℚ)} {v : Value} (h : maxKey vt = some v) :
    v ∈ vt.map Prod.fst := by
  cases vt with
  | nil => cases h
  | cons p rest =>
      rw [maxKey] at h
      injection h with h
      subst h
      simpa using maxKeyAux_mem rest p

/-- C7: `biggest_vendor` is null exactly for an empty record set; otherwise
it is a vendor key occurring in the input (a missing vendor field grouping
under the sentinel "Unknown" through `vendorOf`), and the per-vendor totals
are the exact decimal sums of each group's amounts. -/
theorem biggest_vendor_spec (now : String) (items : List Item) (s : Stats)
    (h : compute_stats now items = .ok s) :
    (s.biggest_vendor = none ↔ items = []) ∧
    (∀ v, s.biggest_vendor = some v → v ∈ items.map vendorOf) ∧
    (∃ r, statsFold (0, []) items = .ok r ∧
      ∀ v, vtGet r.2 v = ((items.filter (fun it => vendorOf it == v)).map amountD).sum) := by
  unfold compute_stats at h
  cases hf : statsFold (0, []) items with
  | error e => rw [hf] at h; cases h
  | ok r =>
      rw [hf] at h
      cases h
      refine ⟨⟨?_, ?_⟩, ?_, ⟨r, rfl, fun v => by simpa [vtGet] using statsFold_vtGet hf v⟩⟩
      · intro hnone
        by_contra hne
        cases hi : items with
        | nil => exact hne hi
        | cons a rest =>
            rw [hi, statsFold] at hf
            cases ha : amountOf a with
            | error e => rw [ha] at hf; cases hf
            | ok q =>
                rw [ha] at hf
                have hr2 : r.2 ≠ [] := statsFold_ne_nil hf (bumpVendor_ne_nil _ _ _)
                rw [if_neg hr2] at hnone
                cases hv : r.2 with
                | nil => exact hr2 hv
                | cons p rest2 => rw [hv, maxKey] at hnone; cases hnone
      · intro hi
        subst hi
        rw [statsFold] at hf
        cases hf
        simp
      · intro v hv
        by_cases hr2 : r.2 = []
        · rw [if_pos hr2] at hv; cases hv
        · rw [if_neg hr2] at hv
          rcases statsFold_keys hf v (maxKey_mem hv) with h1 | h1
          · simp at h1
          · exact h1



lemma compute_stats_wVendor : compute_stats "T" wVendorItems = .ok wVendorStats := by
  simp only [wVendorItems, demoItems, wVendorStats, compute_stats, statsFold, amountOf,
    coerceAmount, dictGetD, vendorOf, bumpVendor, List.lookup, String.reduceEq,
    String.reduceBEq, reduceIte, Value.str.injEq, decimal_to_float, List.cons_append,
    List.nil_append]
  norm_num [maxKey, maxKeyAux, Stats.mk.injEq, PyFloat.mk.injEq]
  exact fun h => absurd h (List.cons_ne_nil _ _)

/-- Witness for C7 on four records, one of them without a vendor field. -/
theorem biggest_vendor_spec_witness :
    (wVendorStats.biggest_vendor = none ↔ wVendorItems = []) ∧
    (∀ v, wVendorStats.biggest_vendor = some v → v ∈ wVendorItems.map vendorOf) ∧
    (∃ r, statsFold (0, []) wVendorItems = .ok r ∧
      ∀ v, vtGet r.2 v = ((wVendorItems.filter (fun it => vendorOf it == v)).map amountD).sum) :=
  biggest_vendor_spec "T" wVendorItems wVendorStats compute_stats_wVendor

/-- Let-free unfolding of `lambda_handler` (definitionally equal). -/
lemma lambda_handler_eq (env : Env) (event : Event) :
    lambda_handler env event =
      if event.httpMethod = some "OPTIONS" then (⟨204, CORS_HEADERS, none⟩, [])
      else if scan_all_transactions env.pages = [] then
        (⟨200, CORS_HEADERS, some (empty_payload env.emptyNow)⟩, [])
      else
        match compute_stats env.statsNow (scan_all_transactions env.pages) with
        | .error msg => (⟨500, CORS_HEADERS, some (errBody msg)⟩, [])
        | .ok stats =>
            match build_summary env stats with
            | .error msg => (⟨500, CORS_HEADERS, some (errBody msg)⟩, [])
            | .ok r =>
                (⟨200, CORS_HEADERS,
                  some (successBody r (apply_limit (serialize_transactions (scan_all_transactions env.pages))
                    (parseLimit (event.queryStringParameters.getD []))))⟩, [r.put]) := rfl

/-- Let-free unfolding of `build_summary` (definitionally equal). -/
lemma build_summary_eq (env : Env) (stats : Stats) :
    build_summary env stats =
      match statsToJson stats with
      | .error e => .error e
      | .ok sj =>
          if env.putOk = true then
            .ok { summary_text := summaryText stats
                  statsJson := sj
                  summaryKey := "summaries/" ++ "summary-" ++ env.keyNow ++ ".json"
                  put := { bucket := BUCKET_NAME
                           key := "summaries/" ++ "summary-" ++ env.keyNow ++ ".json"
                           body := .obj [("summary", .str (summaryText stats)), ("stats", sj)]
                           contentType := "application/json" } }
          else .error env.putErrMsg := rfl

lemma build_summary_ok {env : Env} {stats : Stats} {r : BuildResult}
    (h : build_summary env stats = .ok r) :
    env.putOk = true ∧
    statsToJson stats = .ok r.statsJson ∧
    r.summary_text = summaryText stats ∧
    r.summaryKey = "summaries/" ++ "summary-" ++ env.keyNow ++ ".json" ∧
    r.put = { bucket := BUCKET_NAME, key := r.summaryKey,
              body := .obj [("summary", .str r.summary_text), ("stats", r.statsJson)],
              contentType := "application/json" } := by
  cases hstj : statsToJson stats with
  | error e =>
      have hbseq : build_summary env stats = .error e := by rw [build_summary_eq, hstj]
      rw [hbseq] at h
      cases h
  | ok sj =>
      have hbseq : build_summary env stats =
          if env.putOk = true then
            .ok { summary_text := summaryText stats
                  statsJson := sj
                  summaryKey := "summaries/" ++ "summary-" ++ env.keyNow ++ ".json"
                  put := { bucket := BUCKET_NAME
                           key := "summaries/" ++ "summary-" ++ env.keyNow ++ ".json"
                           body := .obj [("summary", .str (summaryText stats)), ("stats", sj)]
                           contentType := "application/json" } }
          else .error env.putErrMsg := by rw [build_summary_eq, hstj]
      rw [hbseq] at h
      by_cases hp : env.putOk = true
      · rw [if_pos hp] at h
        cases h
        exact ⟨hp, rfl, rfl, rfl, rfl⟩
      · rw [if_neg hp] at h
        cases h

/-- C8: for a successful publish, the summary sentence is exactly the
`"<count> transactions captured. Top vendor: <v or N/A>. Total spend: $<amount
with thousands separators and two decimals>."` template, the JSON document
`{summary, stats}` is written with content type `application/json` under key
`summaries/summary-<timestamp>.json`, and that same key is returned as
`summaryKey`. -/
theorem build_summary_snapshot (env : Env) (stats : Stats) (r : BuildResult)
    (h : build_summary env stats = .ok r) :
    r.summary_text = toString stats.total_transactions ++ " transactions captured. Top vendor: "
      ++ vendorDisplay stats.biggest_vendor ++ ". Total spend: $"
      ++ formatMoney stats.total_amount.val ++ "." ∧
    r.summaryKey = "summaries/" ++ "summary-" ++ env.keyNow ++ ".json" ∧
    r.put.key = r.summaryKey ∧
    r.put.contentType = "application/json" ∧
    r.put.bucket = BUCKET_NAME ∧
    r.put.body = .obj [("summary", .str r.summary_text), ("stats", r.statsJson)] ∧
    statsToJson stats = .ok r.statsJson := by
  obtain ⟨hp, hstj, hst, hk, hput⟩ := build_summary_ok h
  exact ⟨by rw [hst, summaryText], hk, by rw [hput], by rw [hput], by rw [hput],
    by rw [hput], hstj⟩






lemma formatMoney_demo : formatMoney demoStats.total_amount.val = "20.00" := by
  show formatMoney (20 : ℚ) = "20.00"
  norm_num [formatMoney, pyRound2]
  decide

lemma summaryText_demo : summaryText demoStats = wSummaryLine := by
  rw [summaryText, formatMoney_demo]
  rfl

lemma build_summary_demo : build_summary wEnvOk demoStats = .ok wBuild := by
  have h1 : build_summary wEnvOk demoStats =
      .ok { summary_text := summaryText demoStats
            statsJson := demoStatsJson
            summaryKey := "summaries/" ++ "summary-" ++ "K" ++ ".json"
            put := { bucket := BUCKET_NAME
                     key := "summaries/" ++ "summary-" ++ "K" ++ ".json"
                     body := .obj [("summary", .str (summaryText demoStats)), ("stats", demoStatsJson)]
                     contentType := "application/json" } } := rfl
  rw [h1, summaryText_demo]
  rfl

/-- Witness for C8 at the demo Stats and timestamp "K". -/
theorem build_summary_snapshot_witness :
    wBuild.summary_text = toString demoStats.total_transactions ++ " transactions captured. Top vendor: "
      ++ vendorDisplay demoStats.biggest_vendor ++ ". Total spend: $"
      ++ formatMoney demoStats.total_amount.val ++ "." ∧
    wBuild.summaryKey = "summaries/" ++ "summary-" ++ wEnvOk.keyNow ++ ".json" ∧
    wBuild.put.key = wBuild.summaryKey ∧
    wBuild.put.contentType = "application/json" ∧
    wBuild.put.bucket = BUCKET_NAME ∧
    wBuild.put.body = .obj [("summary", .str wBuild.summary_text), ("stats", wBuild.statsJson)] ∧
    statsToJson demoStats = .ok wBuild.statsJson :=
  build_summary_snapshot wEnvOk demoStats wBuild build_summary_demo

/-- C9: a response whose body carries status "success" comes with exactly one
completed snapshot write whose key is the response's `summaryKey`; and when
the snapshot write fails after aggregation succeeded, the whole request turns
into the fixed error body — status "error", the exception text as message
(non-empty when the exception text is), and no stats, summary, summaryKey or
transactions fields. -/
theorem success_snapshot_consistency (env : Env) (event : Event) (res : HandlerResult)
    (puts : List S3Put) (hr : lambda_handler env event = (res, puts)) :
    (∀ b, res.body = some b → jget b "status" = some (.str "success") →
      res.statusCode = 200 ∧ ∃ p, puts = [p] ∧ jget b "summaryKey" = some (.str p.key)) ∧
    (env.putOk = false → event.httpMethod ≠ some "OPTIONS" →
      scan_all_transactions env.pages ≠ [] →
      ∀ stats, compute_stats env.statsNow (scan_all_transactions env.pages) = .ok stats →
      ∀ sj, statsToJson stats = .ok sj →
      lambda_handler env event = (⟨500, CORS_HEADERS, some (errBody env.putErrMsg)⟩, []) ∧
      jget (errBody env.putErrMsg) "status" = some (.str "error") ∧
      jget (errBody env.putErrMsg) "message" = some (.str env.putErrMsg) ∧
      (env.putErrMsg ≠ "" → jget (errBody env.putErrMsg) "message" ≠ some (.str "")) ∧
      jget (errBody env.putErrMsg) "stats" = none ∧
      jget (errBody env.putErrMsg) "summary" = none ∧
      jget (errBody env.putErrMsg) "summaryKey" = none ∧
      jget (errBody env.putErrMsg) "transactions" = none) := by
  constructor
  · intro b hb hstat
    rw [lambda_handler_eq] at hr
    split at hr
    · cases hr
      cases hb
    · split at hr
      · cases hr
        cases hb
        simp [jget, empty_payload, List.lookup] at hstat
      · split at hr
        · cases hr
          cases hb
          simp [jget, errBody, List.lookup] at hstat
        · rename_i stats hcs
          split at hr
          · cases hr
            cases hb
            simp [jget, errBody, List.lookup] at hstat
          · rename_i r hbs
            cases hr
            cases hb
            obtain ⟨hp, hstj, hst, hk, hput⟩ := build_summary_ok hbs
            refine ⟨rfl, r.put, rfl, ?_⟩
            rw [hput]
            exact rfl
  · intro hpf hm hne stats hcs sj hsj
    have hbs : build_summary env stats = .error env.putErrMsg := by
      rw [build_summary_eq, hsj]
      exact if_neg (by simp [hpf])
    refine ⟨?_, rfl, rfl, ?_, rfl, rfl, rfl, rfl⟩
    · rw [lambda_handler_eq, if_neg hm, if_neg hne]
      simp only [hcs, hbs]
    · intro hmsg hcontra
      apply hmsg
      have h2 : some (Json.str env.putErrMsg) = some (Json.str "") := hcontra
      have h3 : Json.str env.putErrMsg = Json.str "" := Option.some.inj h2
      injection h3


lemma lambda_handler_fail_demo :
    lambda_handler wFailEnv wEventGET = (⟨500, CORS_HEADERS, some (errBody "boom")⟩, []) := by
  have hscan : scan_all_transactions wFailEnv.pages = demoItems := by
    rw [scan_all_flatten]
    simp [wFailEnv]
  have hcs : compute_stats wFailEnv.statsNow demoItems = .ok demoStats := compute_stats_demo
  have hbs : build_summary wFailEnv demoStats = .error "boom" := by
    rw [build_summary_eq]
    rw [show statsToJson demoStats = .ok demoStatsJson from rfl]
    exact if_neg (by decide)
  rw [lambda_handler_eq, if_neg (by decide), hscan, if_neg (by decide)]
  simp only [hcs, hbs]

/-- Witness for C9: the demo records with a failing snapshot store. -/
theorem success_snapshot_consistency_witness :
    (∀ b, (⟨500, CORS_HEADERS, some (errBody "boom")⟩ : HandlerResult).body = some b →
      jget b "status" = some (.str "success") →
      (⟨500, CORS_HEADERS, some (errBody "boom")⟩ : HandlerResult).statusCode = 200 ∧
      ∃ p, ([] : List S3Put) = [p] ∧ jget b "summaryKey" = some (.str p.key)) ∧
    (wFailEnv.putOk = false → wEventGET.httpMethod ≠ some "OPTIONS" →
      scan_all_transactions wFailEnv.pages ≠ [] →
      ∀ stats, compute_stats wFailEnv.statsNow (scan_all_transactions wFailEnv.pages) = .ok stats →
      ∀ sj, statsToJson stats = .ok sj →
      lambda_handler wFailEnv wEventGET = (⟨500, CORS_HEADERS, some (errBody wFailEnv.putErrMsg)⟩, []) ∧
      jget (errBody wFailEnv.putErrMsg) "status" = some (.str "error") ∧
      jget (errBody wFailEnv.putErrMsg) "message" = some (.str wFailEnv.putErrMsg) ∧
      (wFailEnv.putErrMsg ≠ "" → jget (errBody wFailEnv.putErrMsg) "message" ≠ some (.str "")) ∧
      jget (errBody wFailEnv.putErrMsg) "stats" = none ∧
      jget (errBody wFailEnv.putErrMsg) "summary" = none ∧
      jget (errBody wFailEnv.putErrMsg) "summaryKey" = none ∧
      jget (errBody wFailEnv.putErrMsg) "transactions" = none) :=
  success_snapshot_consistency wFailEnv wEventGET _ _ lambda_handler_fail_demo

/-- C10: every snapshot blob written during a request belongs to a success
response, and the summary text and stats embedded in it are exactly the
summary and stats of the response body. -/
theorem snapshot_matches_response (env : Env) (event : Event) (res : HandlerResult)
    (puts : List S3Put) (p : S3Put)
    (hr : lambda_handler env event = (res, puts)) (hp : p ∈ puts) :
    ∃ b, res.body = some b ∧ res.statusCode = 200 ∧
      jget b "status" = some (.str "success") ∧
      jget p.body "summary" = jget b "summary" ∧
      jget p.body "stats" = jget b "stats" := by
  rw [lambda_handler_eq] at hr
  split at hr
  · cases hr; cases hp
  · split at hr
    · cases hr; cases hp
    · split at hr
      · cases hr; cases hp
      · rename_i stats hcs
        split at hr
        · cases hr; cases hp
        · rename_i r hbs
          cases hr
          have hp2 : p = r.put := by simpa using hp
          subst hp2
          obtain ⟨hpok, hstj, hst, hk, hput⟩ := build_summary_ok hbs
          refine ⟨_, rfl, rfl, rfl, ?_, ?_⟩
          · rw [hput]
            exact rfl
          · rw [hput]
            exact rfl



lemma lambda_handler_success_demo :
    lambda_handler wEnvOk wEventGET = (wSuccessRes, [wPut]) := by
  have hscan : scan_all_transactions wEnvOk.pages = demoItems := by
    rw [scan_all_flatten]
    simp [wEnvOk]
  have hcs : compute_stats wEnvOk.statsNow demoItems = .ok demoStats := compute_stats_demo
  have hbs : build_summary wEnvOk demoStats = .ok wBuild := build_summary_demo
  rw [lambda_handler_eq, if_neg (by decide), hscan, if_neg (by decide)]
  simp only [hcs, hbs]
  rfl

/-- Witness for C10: the demo request writes one snapshot, and it matches the
response body. -/
theorem snapshot_matches_response_witness :
    ∃ b, wSuccessRes.body = some b ∧ wSuccessRes.statusCode = 200 ∧
      jget b "status" = some (.str "success") ∧
      jget wPut.body "summary" = jget b "summary" ∧
      jget wPut.body "stats" = jget b "stats" :=
  snapshot_matches_response wEnvOk wEventGET wSuccessRes [wPut] wPut
    lambda_handler_success_demo (by simp)

end OcrParse
